import Mathlib

/-!
# Verification of the PipeData Batch Lifecycle and Transmission Manager

A shallow embedding of the batch lifecycle core described in `spec.md`
(BatchStore, ReviewGate, Exporter, Transmitter, HistoryStore) together with
the NextAuth sign-in callback from the dashboard source.

The repository ships only the dashboard client of the administrative API;
the server implementing the batch lifecycle is not part of the source tree,
so the core operations below are modelled from the specification.  The
sign-in callback is embedded directly from the source file that defines
`authOptions.callbacks.signIn`.
-/

namespace Pipedata

/-- Modelled from the spec: batch status, the closed enum
`{pending, approved, rejected, sent}` of section 3. -/
inductive Status : Type
| pending
| approved
| rejected
| sent
deriving DecidableEq, Repr

/-- Modelled from the spec: an immutable scored record owned by the pool
(identifier, question text, answer text, quality score, source tag). -/
structure Item : Type where
  id : Nat
  question : String
  answer : String
  quality_score : ℚ
  source : String
deriving DecidableEq, Repr

/-- Modelled from the spec: a batch record — identifier, creation time,
ordered item identifiers frozen at creation, total item count, average
quality score, source tags, status, and the review fields. -/
structure Batch : Type where
  batch_id : Nat
  created_at : Nat
  item_ids : List Nat
  total_items : Nat
  avg_quality_score : ℚ
  sources : List String
  status : Status
  reviewed_by : Option String
  reviewed_at : Option Nat
  notes : Option String
deriving DecidableEq, Repr

/-- Modelled from the spec: the transmission record written by a successful
send, with `success_count + error_count = items_count`. -/
structure TransmissionRecord : Type where
  id : Nat
  batch_id : Nat
  sent_at : Nat
  sent_by : String
  items_count : Nat
  success_count : Nat
  error_count : Nat
deriving DecidableEq, Repr

/-- Modelled from the spec: the kind of an audit-log entry. -/
inductive ActionKind : Type
| createKind
| reviewKind
| sendKind
| exportKind
deriving DecidableEq, Repr

/-- Modelled from the spec: an append-only audit entry (actor, kind,
batch reference, timestamp, notes). -/
structure AdminAction : Type where
  actor : String
  kind : ActionKind
  batch_ref : Nat
  timestamp : Nat
  notes : Option String
deriving DecidableEq, Repr

/-- Modelled from the spec: the error taxonomy of section 7 that the core
operations surface to callers. -/
inductive AdminError : Type
| NoEligibleItemsError
| NotFoundError
| InvalidStateError
| ValidationError
| StorageError
deriving DecidableEq, Repr

/-- Modelled from the spec: the review decision, `approve` or `reject`. -/
inductive ReviewAction : Type
| approve
| reject
deriving DecidableEq, Repr

/-- Modelled from the spec: the persisted state layout of section 6 — the
item table owned by the pool, the batches table, the append-only
transmission records and admin actions, id counters and a logical clock. -/
structure AdminState : Type where
  itemsTable : List Item
  batches : List Batch
  records : List TransmissionRecord
  actions : List AdminAction
  nextBatchId : Nat
  nextRecordId : Nat
  clock : Nat
deriving DecidableEq, Repr

/-- Look a batch up by identifier in the batches table. -/
def findBatch (s : AdminState) (id : Nat) : Option Batch :=
  s.batches.find? (fun b => decide (b.batch_id = id))

/-- An item identifier is claimed when some existing batch contains it. -/
def itemClaimed (s : AdminState) (itemId : Nat) : Bool :=
  s.batches.any (fun b => decide (itemId ∈ b.item_ids))

/-- Modelled from the spec: the pool query `fetchUnclaimed` — unclaimed
items with score at least the threshold, at most `maxItems` of them, in the
pool's native order. -/
def eligibleItems (s : AdminState) (minQuality : ℚ) (maxItems : Nat) : List Item :=
  (s.itemsTable.filter
    (fun it => decide (minQuality ≤ it.quality_score) && ! itemClaimed s it.id)).take maxItems

/-- The batch persisted by a successful create: fresh identifier, status
pending, frozen item identifiers, computed average quality and source set. -/
def newBatch (minQuality : ℚ) (maxItems : Nat) (s : AdminState) : Batch :=
  { batch_id := s.nextBatchId
    created_at := s.clock
    item_ids := (eligibleItems s minQuality maxItems).map Item.id
    total_items := (eligibleItems s minQuality maxItems).length
    avg_quality_score :=
      ((eligibleItems s minQuality maxItems).map Item.quality_score).sum /
        ((eligibleItems s minQuality maxItems).length : ℚ)
    sources := ((eligibleItems s minQuality maxItems).map Item.source).dedup
    status := Status.pending
    reviewed_by := none
    reviewed_at := none
    notes := none }

/-- Modelled from the spec: `BatchStore.create(minQuality, maxItems,
actorId)` — fails with `NoEligibleItemsError` and leaves the state
untouched when the pool yields no item, otherwise claims the items,
persists a pending batch and appends an audit entry. -/
def create (minQuality : ℚ) (maxItems : Nat) (actor : String) (s : AdminState) :
    Except AdminError Batch × AdminState :=
  if (eligibleItems s minQuality maxItems).isEmpty then
    (Except.error AdminError.NoEligibleItemsError, s)
  else
    (Except.ok (newBatch minQuality maxItems s),
      { s with
          batches := newBatch minQuality maxItems s :: s.batches
          nextBatchId := s.nextBatchId + 1
          clock := s.clock + 1
          actions :=
            ⟨actor, ActionKind.createKind, s.nextBatchId, s.clock, none⟩ :: s.actions })

/-- Replace the first batch with the same identifier by the given batch. -/
def updateBatch : List Batch → Batch → List Batch
| [], _ => []
| x :: xs, b => if x.batch_id = b.batch_id then b :: xs else x :: updateBatch xs b

/-- The reviewed version of a batch: new status and recorded reviewer,
review time and notes. -/
def reviewedBatch (b : Batch) (action : ReviewAction) (actor : String)
    (notes : String) (t : Nat) : Batch :=
  { b with
      status := match action with
        | ReviewAction.approve => Status.approved
        | ReviewAction.reject => Status.rejected
      reviewed_by := some actor
      reviewed_at := some t
      notes := some notes }

/-- Modelled from the spec: `ReviewGate.review(batchId, action, actorId,
notes)` — legal only on a pending batch; otherwise `InvalidStateError`
with the state untouched; unknown batch gives `NotFoundError`. -/
def review (batchId : Nat) (action : ReviewAction) (actor : String) (notes : String)
    (s : AdminState) : Except AdminError Batch × AdminState :=
  match findBatch s batchId with
  | none => (Except.error AdminError.NotFoundError, s)
  | some b =>
    if b.status = Status.pending then
      (Except.ok (reviewedBatch b action actor notes s.clock),
        { s with
            batches := updateBatch s.batches (reviewedBatch b action actor notes s.clock)
            clock := s.clock + 1
            actions :=
              ⟨actor, ActionKind.reviewKind, batchId, s.clock, some notes⟩ :: s.actions })
    else (Except.error AdminError.InvalidStateError, s)

/-- The sent version of a batch: only the status changes. -/
def sentBatch (b : Batch) : Batch :=
  { b with status := Status.sent }

/-- The transmission record written for a batch by a send whose per-item
downstream outcomes are given by `outcome`. -/
def sendRecord (b : Batch) (actor : String) (outcome : Nat → Bool)
    (s : AdminState) : TransmissionRecord :=
  { id := s.nextRecordId
    batch_id := b.batch_id
    sent_at := s.clock
    sent_by := actor
    items_count := b.item_ids.length
    success_count := b.item_ids.countP outcome
    error_count := b.item_ids.countP (fun i => ! outcome i) }

/-- The success payload returned by a send. -/
structure SendResult : Type where
  items_sent : Nat
  success_count : Nat
  error_count : Nat
deriving DecidableEq, Repr

/-- Modelled from the spec: `Transmitter.send(batchId, actorId)` — legal
only on an approved batch; submits each item, tallying per-item success and
failure through the downstream `outcome` oracle, finalizes the batch as
sent, persists one transmission record and appends an audit entry.  On a
batch not in approved status it returns `InvalidStateError` and leaves the
state untouched. -/
def send (batchId : Nat) (actor : String) (outcome : Nat → Bool) (s : AdminState) :
    Except AdminError SendResult × AdminState :=
  match findBatch s batchId with
  | none => (Except.error AdminError.NotFoundError, s)
  | some b =>
    if b.status = Status.approved then
      (Except.ok
        ⟨(sendRecord b actor outcome s).items_count,
          (sendRecord b actor outcome s).success_count,
          (sendRecord b actor outcome s).error_count⟩,
        { s with
            batches := updateBatch s.batches (sentBatch b)
            records := sendRecord b actor outcome s :: s.records
            nextRecordId := s.nextRecordId + 1
            clock := s.clock + 1
            actions :=
              ⟨actor, ActionKind.sendKind, batchId, s.clock, none⟩ :: s.actions })
    else (Except.error AdminError.InvalidStateError, s)

/-- Modelled from the spec: the export interchange formats of section 4.3. -/
inductive ExportFormat : Type
| json
| csv
| table
deriving DecidableEq, Repr

/-- The full item payload of a batch, in the frozen insertion order of its
item identifiers. -/
def batchItems (s : AdminState) (b : Batch) : List Item :=
  b.item_ids.filterMap (fun i => s.itemsTable.find? (fun it => decide (it.id = i)))

/-- One serialized row of an export. -/
def serializeItem (it : Item) : String :=
  it.question ++ "," ++ it.answer ++ "," ++ toString it.quality_score ++ "," ++ it.source

/-- The summary section of the table format: item count and average
quality score. -/
def summaryLine (items : List Item) : String :=
  toString items.length ++ "," ++
    toString ((items.map Item.quality_score).sum / (items.length : ℚ))

/-- Modelled from the spec: serialization of a batch's items per format;
the table format carries a summary section in addition to the rows. -/
def exportPayload : ExportFormat → List Item → String
| ExportFormat.json, items => String.intercalate "\n" (items.map serializeItem)
| ExportFormat.csv, items =>
    "question,answer,score,source\n" ++ String.intercalate "\n" (items.map serializeItem)
| ExportFormat.table, items =>
    summaryLine items ++ "\n" ++ String.intercalate "\n" (items.map serializeItem)

/-- Modelled from the spec: `Exporter` applied to `(batchId, format,
actorId)` — legal at any batch status, pure with respect to batch state,
appends only an audit entry; unknown batch gives `NotFoundError`. -/
def exportBatch (batchId : Nat) (fmt : ExportFormat) (actor : String) (s : AdminState) :
    Except AdminError String × AdminState :=
  match findBatch s batchId with
  | none => (Except.error AdminError.NotFoundError, s)
  | some b =>
    (Except.ok (exportPayload fmt (batchItems s b)),
      { s with
          clock := s.clock + 1
          actions :=
            ⟨actor, ActionKind.exportKind, batchId, s.clock, none⟩ :: s.actions })

/-- Count the batches currently in a given status. -/
def countStatus (s : AdminState) (st : Status) : Nat :=
  s.batches.countP (fun b => decide (b.status = st))

/-- Modelled from the spec: the aggregate batch statistics maintained by
the HistoryStore (section 4.5). -/
structure BatchStats : Type where
  total_batches : Nat
  pending_batches : Nat
  approved_batches : Nat
  rejected_batches : Nat
  sent_batches : Nat
  total_items : Nat
deriving DecidableEq, Repr

/-- Modelled from the spec: recompute the aggregate statistics from the
batches table. -/
def batchStats (s : AdminState) : BatchStats :=
  { total_batches := s.batches.length
    pending_batches := countStatus s Status.pending
    approved_batches := countStatus s Status.approved
    rejected_batches := countStatus s Status.rejected
    sent_batches := countStatus s Status.sent
    total_items := (s.batches.map Batch.total_items).sum }

/-- The initial state over a given pool of items: no batches, no records,
no audit entries. -/
def mkInit (pool : List Item) : AdminState :=
  { itemsTable := pool
    batches := []
    records := []
    actions := []
    nextBatchId := 0
    nextRecordId := 0
    clock := 0 }

/-- One administrative operation applied to the state, with arbitrary
arguments and an arbitrary downstream outcome oracle. -/
inductive Step : AdminState → AdminState → Prop
| ofCreate (minQuality : ℚ) (maxItems : Nat) (actor : String) (s : AdminState) :
    Step s (create minQuality maxItems actor s).2
| ofReview (batchId : Nat) (action : ReviewAction) (actor notes : String) (s : AdminState) :
    Step s (review batchId action actor notes s).2
| ofSend (batchId : Nat) (actor : String) (outcome : Nat → Bool) (s : AdminState) :
    Step s (send batchId actor outcome s).2
| ofExport (batchId : Nat) (fmt : ExportFormat) (actor : String) (s : AdminState) :
    Step s (exportBatch batchId fmt actor s).2

/-- States reachable from the initial state over a pool by any sequence of
administrative operations. -/
inductive Reachable (pool : List Item) : AdminState → Prop
| init : Reachable pool (mkInit pool)
| step {s t : AdminState} : Reachable pool s → Step s t → Reachable pool t

/-! ## Characterization lemmas for the operations -/

theorem create_empty {minQuality : ℚ} {maxItems : Nat} {actor : String} {s : AdminState}
    (h : (eligibleItems s minQuality maxItems).isEmpty = true) :
    create minQuality maxItems actor s = (Except.error AdminError.NoEligibleItemsError, s) := by
  simp [create, h]

theorem create_nonempty {minQuality : ℚ} {maxItems : Nat} {actor : String} {s : AdminState}
    (h : (eligibleItems s minQuality maxItems).isEmpty = false) :
    create minQuality maxItems actor s =
      (Except.ok (newBatch minQuality maxItems s),
        { s with
            batches := newBatch minQuality maxItems s :: s.batches
            nextBatchId := s.nextBatchId + 1
            clock := s.clock + 1
            actions :=
              ⟨actor, ActionKind.createKind, s.nextBatchId, s.clock, none⟩ :: s.actions }) := by
  simp [create, h]

theorem review_not_found {batchId : Nat} {action : ReviewAction} {actor notes : String}
    {s : AdminState} (h : findBatch s batchId = none) :
    review batchId action actor notes s = (Except.error AdminError.NotFoundError, s) := by
  simp [review, h]

theorem review_not_pending {batchId : Nat} {action : ReviewAction} {actor notes : String}
    {s : AdminState} {b : Batch} (hb : findBatch s batchId = some b)
    (h : b.status ≠ Status.pending) :
    review batchId action actor notes s = (Except.error AdminError.InvalidStateError, s) := by
  simp [review, hb, h]

theorem review_pending {batchId : Nat} {action : ReviewAction} {actor notes : String}
    {s : AdminState} {b : Batch} (hb : findBatch s batchId = some b)
    (h : b.status = Status.pending) :
    review batchId action actor notes s =
      (Except.ok (reviewedBatch b action actor notes s.clock),
        { s with
            batches := updateBatch s.batches (reviewedBatch b action actor notes s.clock)
            clock := s.clock + 1
            actions :=
              ⟨actor, ActionKind.reviewKind, batchId, s.clock, some notes⟩ :: s.actions }) := by
  simp [review, hb, h]

theorem send_not_found {batchId : Nat} {actor : String} {outcome : Nat → Bool}
    {s : AdminState} (h : findBatch s batchId = none) :
    send batchId actor outcome s = (Except.error AdminError.NotFoundError, s) := by
  simp [send, h]

theorem send_not_approved {batchId : Nat} {actor : String} {outcome : Nat → Bool}
    {s : AdminState} {b : Batch} (hb : findBatch s batchId = some b)
    (h : b.status ≠ Status.approved) :
    send batchId actor outcome s = (Except.error AdminError.InvalidStateError, s) := by
  simp [send, hb, h]

theorem send_approved {batchId : Nat} {actor : String} {outcome : Nat → Bool}
    {s : AdminState} {b : Batch} (hb : findBatch s batchId = some b)
    (h : b.status = Status.approved) :
    send batchId actor outcome s =
      (Except.ok
        ⟨(sendRecord b actor outcome s).items_count,
          (sendRecord b actor outcome s).success_count,
          (sendRecord b actor outcome s).error_count⟩,
        { s with
            batches := updateBatch s.batches (sentBatch b)
            records := sendRecord b actor outcome s :: s.records
            nextRecordId := s.nextRecordId + 1
            clock := s.clock + 1
            actions := ⟨actor, ActionKind.sendKind, batchId, s.clock, none⟩ :: s.actions }) := by
  simp [send, hb, h]

theorem exportBatch_not_found {batchId : Nat} {fmt : ExportFormat} {actor : String}
    {s : AdminState} (h : findBatch s batchId = none) :
    exportBatch batchId fmt actor s = (Except.error AdminError.NotFoundError, s) := by
  simp [exportBatch, h]

theorem exportBatch_found {batchId : Nat} {fmt : ExportFormat} {actor : String}
    {s : AdminState} {b : Batch} (hb : findBatch s batchId = some b) :
    exportBatch batchId fmt actor s =
      (Except.ok (exportPayload fmt (batchItems s b)),
        { s with
            clock := s.clock + 1
            actions := ⟨actor, ActionKind.exportKind, batchId, s.clock, none⟩ :: s.actions }) := by
  simp [exportBatch, hb]

/-! ## Basic lookup and update lemmas -/

theorem findBatch_mem {s : AdminState} {id : Nat} {b : Batch}
    (h : findBatch s id = some b) : b ∈ s.batches :=
  List.mem_of_find?_eq_some h

theorem findBatch_id {s : AdminState} {id : Nat} {b : Batch}
    (h : findBatch s id = some b) : b.batch_id = id := by
  have := List.find?_some h
  simpa using this

theorem updateBatch_map_id (l : List Batch) (b : Batch) :
    (updateBatch l b).map Batch.batch_id = l.map Batch.batch_id := by
  induction l with
  | nil => rfl
  | cons x xs ih =>
    by_cases h : x.batch_id = b.batch_id
    · simp [updateBatch, h]
    · simp [updateBatch, h, ih]

theorem mem_updateBatch {l : List Batch} {b y : Batch}
    (hnd : (l.map Batch.batch_id).Nodup) (hy : y ∈ updateBatch l b) :
    y = b ∨ (y ∈ l ∧ y.batch_id ≠ b.batch_id) := by
  induction l with
  | nil => simp [updateBatch] at hy
  | cons x xs ih =>
    rw [List.map_cons, List.nodup_cons] at hnd
    by_cases h : x.batch_id = b.batch_id
    · rw [updateBatch, if_pos h] at hy
      rcases List.mem_cons.mp hy with h1 | h1
      · exact Or.inl h1
      · refine Or.inr ⟨List.mem_cons_of_mem _ h1, ?_⟩
        intro hcon
        apply hnd.1
        rw [h, ← hcon]
        exact List.mem_map_of_mem Batch.batch_id h1
    · rw [updateBatch, if_neg h] at hy
      rcases List.mem_cons.mp hy with h1 | h1
      · exact Or.inr ⟨by simp [h1], by rw [h1]; exact h⟩
      · rcases ih hnd.2 h1 with h2 | h2
        · exact Or.inl h2
        · exact Or.inr ⟨List.mem_cons_of_mem _ h2.1, h2.2⟩

theorem find?_updateBatch_self {l : List Batch} {b c : Batch}
    (hc : l.find? (fun x => decide (x.batch_id = b.batch_id)) = some c) :
    (updateBatch l b).find? (fun x => decide (x.batch_id = b.batch_id)) = some b := by
  induction l with
  | nil => simp at hc
  | cons x xs ih =>
    by_cases h : x.batch_id = b.batch_id
    · rw [updateBatch, if_pos h]
      simp [List.find?_cons]
    · rw [updateBatch, if_neg h]
      rw [List.find?_cons_of_neg _ (by simpa using h)] at hc
      rw [List.find?_cons_of_neg _ (by simpa using h)]
      exact ih hc

theorem find?_updateBatch_ne (l : List Batch) (b : Batch) {id : Nat}
    (h : id ≠ b.batch_id) :
    (updateBatch l b).find? (fun x => decide (x.batch_id = id)) =
      l.find? (fun x => decide (x.batch_id = id)) := by
  induction l with
  | nil => rfl
  | cons x xs ih =>
    by_cases hx : x.batch_id = b.batch_id
    · rw [updateBatch, if_pos hx]
      have hb1 : ¬(b.batch_id = id) := fun hc => h hc.symm
      have hx1 : ¬(x.batch_id = id) := fun hc => h (by rw [← hc]; exact hx)
      rw [List.find?_cons_of_neg _ (by simpa using hb1),
        List.find?_cons_of_neg _ (by simpa using hx1)]
    · rw [updateBatch, if_neg hx]
      by_cases hx2 : x.batch_id = id
      · rw [List.find?_cons_of_pos _ (by simpa using hx2),
          List.find?_cons_of_pos _ (by simpa using hx2)]
      · rw [List.find?_cons_of_neg _ (by simpa using hx2),
          List.find?_cons_of_neg _ (by simpa using hx2), ih]

theorem countP_add_countP_not (l : List Nat) (p : Nat → Bool) :
    l.countP p + l.countP (fun i => ! p i) = l.length := by
  induction l with
  | nil => rfl
  | cons x xs ih =>
    rw [List.countP_cons, List.countP_cons, List.length_cons]
    by_cases h : p x = true
    · simp [h]; omega
    · simp [h]; omega

theorem eligible_unclaimed {s : AdminState} {minQuality : ℚ} {maxItems : Nat} {it : Item}
    (h : it ∈ eligibleItems s minQuality maxItems) : itemClaimed s it.id = false := by
  unfold eligibleItems at h
  have h2 := List.take_subset _ _ h
  have h3 := (List.mem_filter.mp h2).2
  rw [Bool.and_eq_true] at h3
  simpa using h3.2

theorem unclaimed_not_mem {s : AdminState} {i : Nat} (h : itemClaimed s i = false)
    {b : Batch} (hb : b ∈ s.batches) : i ∉ b.item_ids := by
  intro hmem
  have : s.batches.any (fun b => decide (i ∈ b.item_ids)) = true :=
    List.any_eq_true.mpr ⟨b, hb, by simpa using hmem⟩
  rw [itemClaimed] at h
  rw [this] at h
  exact Bool.true_eq_false.mp h

/-! ## The state invariant maintained by every operation -/

/-- The invariant of the persisted state: batch identifiers are fresh and
distinct, the stored item count of each batch matches its frozen item-id
list, distinct batches hold disjoint item-id sets, a batch has exactly one
transmission record when sent and none otherwise, and records reference
only already-allocated batch identifiers. -/
structure Inv (s : AdminState) : Prop where
  ids_lt : ∀ b ∈ s.batches, b.batch_id < s.nextBatchId
  ids_nodup : (s.batches.map Batch.batch_id).Nodup
  total_eq : ∀ b ∈ s.batches, b.total_items = b.item_ids.length
  disj : ∀ b1 ∈ s.batches, ∀ b2 ∈ s.batches, b1.batch_id ≠ b2.batch_id →
    ∀ i ∈ b1.item_ids, i ∉ b2.item_ids
  rec_count : ∀ b ∈ s.batches,
    s.records.countP (fun r => decide (r.batch_id = b.batch_id)) =
      (if b.status = Status.sent then 1 else 0)
  recs_lt : ∀ r ∈ s.records, r.batch_id < s.nextBatchId

theorem inv_init (pool : List Item) : Inv (mkInit pool) := by
  constructor <;> simp [mkInit]

theorem inv_create (minQuality : ℚ) (maxItems : Nat) (actor : String) (s : AdminState)
    (h : Inv s) : Inv (create minQuality maxItems actor s).2 := by
  by_cases he : (eligibleItems s minQuality maxItems).isEmpty
  · rw [create_empty he]
    exact h
  · rw [create_nonempty (Bool.not_eq_true _ ▸ he)]
    have hnew_id : (newBatch minQuality maxItems s).batch_id = s.nextBatchId := rfl
    have hnew_items :
        (newBatch minQuality maxItems s).item_ids =
          (eligibleItems s minQuality maxItems).map Item.id := rfl
    have hclaim : ∀ i ∈ (newBatch minQuality maxItems s).item_ids,
        ∀ b2 ∈ s.batches, i ∉ b2.item_ids := by
      intro i hi b2 hb2
      rw [hnew_items, List.mem_map] at hi
      obtain ⟨it, hit, rfl⟩ := hi
      exact unclaimed_not_mem (eligible_unclaimed hit) hb2
    constructor
    · intro b hb
      rcases List.mem_cons.mp hb with rfl | hb
      · simp [hnew_id]
      · exact Nat.lt_trans (h.ids_lt b hb) (Nat.lt_succ_self _)
    · rw [List.map_cons, List.nodup_cons]
      refine ⟨?_, h.ids_nodup⟩
      rw [hnew_id, List.mem_map]
      rintro ⟨b, hb, hid⟩
      exact absurd hid (Nat.ne_of_gt (h.ids_lt b hb)).symm
    · intro b hb
      rcases List.mem_cons.mp hb with rfl | hb
      · simp [newBatch]
      · exact h.total_eq b hb
    · intro b1 hb1 b2 hb2 hne i hi
      rcases List.mem_cons.mp hb1 with rfl | hb1 <;> rcases List.mem_cons.mp hb2 with rfl | hb2
      · exact absurd rfl hne
      · exact hclaim i hi b2 hb2
      · intro hcon
        exact hclaim i hcon b1 hb1 hi
      · exact h.disj b1 hb1 b2 hb2 hne i hi
    · intro b hb
      rcases List.mem_cons.mp hb with rfl | hb
      · have : (newBatch minQuality maxItems s).status = Status.pending := rfl
        rw [this]
        simp only [reduceCtorEq, if_false]
        rw [List.countP_eq_zero]
        intro r hr
        simp only [decide_eq_true_eq, hnew_id]
        exact Nat.ne_of_lt (h.recs_lt r hr)
      · exact h.rec_count b hb
    · intro r hr
      exact Nat.lt_trans (h.recs_lt r hr) (Nat.lt_succ_self _)

theorem inv_review (batchId : Nat) (action : ReviewAction) (actor notes : String)
    (s : AdminState) (h : Inv s) : Inv (review batchId action actor notes s).2 := by
  cases hfb : findBatch s batchId with
  | none =>
    rw [review_not_found hfb]
    exact h
  | some b =>
    by_cases hst : b.status = Status.pending
    · rw [review_pending hfb hst]
      have hb_mem := findBatch_mem hfb
      have hb2_id : (reviewedBatch b action actor notes s.clock).batch_id = b.batch_id := rfl
      have hb2_items :
          (reviewedBatch b action actor notes s.clock).item_ids = b.item_ids := rfl
      have hb2_total :
          (reviewedBatch b action actor notes s.clock).total_items = b.total_items := rfl
      have hb2_status : (reviewedBatch b action actor notes s.clock).status ≠ Status.sent := by
        cases action <;> simp [reviewedBatch]
      constructor
      · intro y hy
        rcases mem_updateBatch h.ids_nodup hy with rfl | ⟨hy1, _⟩
        · rw [hb2_id]
          exact h.ids_lt b hb_mem
        · exact h.ids_lt y hy1
      · rw [updateBatch_map_id]
        exact h.ids_nodup
      · intro y hy
        rcases mem_updateBatch h.ids_nodup hy with rfl | ⟨hy1, _⟩
        · rw [hb2_total, hb2_items]
          exact h.total_eq b hb_mem
        · exact h.total_eq y hy1
      · intro y1 hy1 y2 hy2 hne i hi
        rcases mem_updateBatch h.ids_nodup hy1 with rfl | ⟨hm1, hne1⟩ <;>
          rcases mem_updateBatch h.ids_nodup hy2 with rfl | ⟨hm2, hne2⟩
        · exact absurd rfl hne
        · rw [hb2_items] at hi
          exact h.disj b hb_mem y2 hm2
            (fun hc => hne2 (by rw [hb2_id]; exact hc.symm)) i hi
        · rw [hb2_items]
          exact h.disj y1 hm1 b hb_mem (fun hc => hne1 (by rw [hb2_id]; exact hc)) i hi
        · exact h.disj y1 hm1 y2 hm2 hne i hi
      · intro y hy
        rcases mem_updateBatch h.ids_nodup hy with rfl | ⟨hy1, _⟩
        · rw [if_neg hb2_status, hb2_id, h.rec_count b hb_mem, if_neg (by rw [hst]; simp)]
        · exact h.rec_count y hy1
      · intro r hr
        exact h.recs_lt r hr
    · rw [review_not_pending hfb hst]
      exact h

theorem inv_send (batchId : Nat) (actor : String) (outcome : Nat → Bool)
    (s : AdminState) (h : Inv s) : Inv (send batchId actor outcome s).2 := by
  cases hfb : findBatch s batchId with
  | none =>
    rw [send_not_found hfb]
    exact h
  | some b =>
    by_cases hst : b.status = Status.approved
    · rw [send_approved hfb hst]
      have hb_mem := findBatch_mem hfb
      have hb2_id : (sentBatch b).batch_id = b.batch_id := rfl
      have hb2_items : (sentBatch b).item_ids = b.item_ids := rfl
      have hb2_total : (sentBatch b).total_items = b.total_items := rfl
      have hrec_id : (sendRecord b actor outcome s).batch_id = b.batch_id := rfl
      constructor
      · intro y hy
        rcases mem_updateBatch h.ids_nodup hy with rfl | ⟨hy1, _⟩
        · rw [hb2_id]
          exact h.ids_lt b hb_mem
        · exact h.ids_lt y hy1
      · rw [updateBatch_map_id]
        exact h.ids_nodup
      · intro y hy
        rcases mem_updateBatch h.ids_nodup hy with rfl | ⟨hy1, _⟩
        · rw [hb2_total, hb2_items]
          exact h.total_eq b hb_mem
        · exact h.total_eq y hy1
      · intro y1 hy1 y2 hy2 hne i hi
        rcases mem_updateBatch h.ids_nodup hy1 with rfl | ⟨hm1, hne1⟩ <;>
          rcases mem_updateBatch h.ids_nodup hy2 with rfl | ⟨hm2, hne2⟩
        · exact absurd rfl hne
        · rw [hb2_items] at hi
          exact h.disj b hb_mem y2 hm2
            (fun hc => hne2 (by rw [hb2_id]; exact hc.symm)) i hi
        · rw [hb2_items]
          exact h.disj y1 hm1 b hb_mem (fun hc => hne1 (by rw [hb2_id]; exact hc)) i hi
        · exact h.disj y1 hm1 y2 hm2 hne i hi
      · intro y hy
        rcases mem_updateBatch h.ids_nodup hy with rfl | ⟨hy1, hne1⟩
        · have hys : (sentBatch b).status = Status.sent := rfl
          rw [if_pos hys, List.countP_cons, hb2_id, hrec_id]
          rw [h.rec_count b hb_mem, if_neg (by rw [hst]; simp)]
          simp
        · rw [List.countP_cons, h.rec_count y hy1]
          have : ¬((sendRecord b actor outcome s).batch_id = y.batch_id) := by
            rw [hrec_id]
            exact fun hc => hne1 (by rw [hb2_id]; exact hc.symm)
          simp [this]
      · intro r hr
        rcases List.mem_cons.mp hr with rfl | hr
        · rw [hrec_id]
          exact h.ids_lt b hb_mem
        · exact h.recs_lt r hr
    · rw [send_not_approved hfb hst]
      exact h

theorem inv_export (batchId : Nat) (fmt : ExportFormat) (actor : String)
    (s : AdminState) (h : Inv s) : Inv (exportBatch batchId fmt actor s).2 := by
  cases hfb : findBatch s batchId with
  | none =>
    rw [exportBatch_not_found hfb]
    exact h
  | some b =>
    rw [exportBatch_found hfb]
    exact ⟨h.ids_lt, h.ids_nodup, h.total_eq, h.disj, h.rec_count, h.recs_lt⟩

theorem inv_step {s t : AdminState} (hs : Step s t) (h : Inv s) : Inv t := by
  cases hs with
  | ofCreate minQuality maxItems actor s => exact inv_create minQuality maxItems actor s h
  | ofReview batchId action actor notes s => exact inv_review batchId action actor notes s h
  | ofSend batchId actor outcome s => exact inv_send batchId actor outcome s h
  | ofExport batchId fmt actor s => exact inv_export batchId fmt actor s h

theorem reachable_inv {pool : List Item} {s : AdminState} (h : Reachable pool s) : Inv s := by
  induction h with
  | init => exact inv_init pool
  | step _ hs ih => exact inv_step hs ih

/-! ## The status state machine -/

/-- The legal status evolutions of a batch across one operation: stay put,
`pending` to `approved`, `pending` to `rejected`, or `approved` to
`sent`. -/
def allowedEdge (a b : Status) : Prop :=
  a = b ∨ (a = Status.pending ∧ (b = Status.approved ∨ b = Status.rejected)) ∨
    (a = Status.approved ∧ b = Status.sent)

theorem edges_of_eq {s : AdminState} {id : Nat} {b2 : Batch}
    (hb2 : findBatch s id = some b2) :
    (findBatch s id = none → b2.status = Status.pending) ∧
    (∀ b1, findBatch s id = some b1 → allowedEdge b1.status b2.status) := by
  refine ⟨fun hn => ?_, fun b1 hb1 => ?_⟩
  · rw [hn] at hb2
    cases hb2
  · rw [hb1] at hb2
    injection hb2 with h
    rw [h]
    exact Or.inl rfl

/-- C1: across every operation applied to a reachable state, a batch's
status moves only along `pending → approved`, `pending → rejected` and
`approved → sent`: a batch that appears is created pending, and a present
batch's status follows an allowed edge (staying put included), so no
operation leaves `sent` or `rejected` and none returns to `pending`. -/
theorem batch_status_transitions {pool : List Item} {s t : AdminState}
    (hr : Reachable pool s) (hs : Step s t) (id : Nat) (b2 : Batch)
    (hb2 : findBatch t id = some b2) :
    (findBatch s id = none → b2.status = Status.pending) ∧
    (∀ b1, findBatch s id = some b1 → allowedEdge b1.status b2.status) := by
  have hinv := reachable_inv hr
  cases hs with
  | ofCreate minQuality maxItems actor s1 =>
    by_cases he : (eligibleItems s minQuality maxItems).isEmpty
    · rw [create_empty he] at hb2
      exact edges_of_eq hb2
    · have hne : (eligibleItems s minQuality maxItems).isEmpty = false :=
        Bool.not_eq_true _ ▸ he
      by_cases hid : (newBatch minQuality maxItems s).batch_id = id
      · have hfind : findBatch (create minQuality maxItems actor s).2 id =
            some (newBatch minQuality maxItems s) := by
          rw [create_nonempty hne]
          exact List.find?_cons_of_pos _ (by simpa using hid)
        have heq := hfind.symm.trans hb2
        injection heq with heq
        refine ⟨fun _ => ?_, fun b1 hb1 => ?_⟩
        · rw [← heq]
          rfl
        · exfalso
          have h1 := hinv.ids_lt b1 (findBatch_mem hb1)
          have h2 := findBatch_id hb1
          have h3 : (newBatch minQuality maxItems s).batch_id = s.nextBatchId := rfl
          rw [h2, ← hid, h3] at h1
          exact Nat.lt_irrefl _ h1
      · have hfind : findBatch (create minQuality maxItems actor s).2 id =
            findBatch s id := by
          rw [create_nonempty hne]
          exact List.find?_cons_of_neg _ (by simpa using hid)
        rw [hfind] at hb2
        exact edges_of_eq hb2
  | ofReview batchId action actor notes s1 =>
    cases hfb : findBatch s batchId with
    | none =>
      rw [review_not_found hfb] at hb2
      exact edges_of_eq hb2
    | some b =>
      by_cases hst : b.status = Status.pending
      · have hb_id := findBatch_id hfb
        by_cases hid : id = b.batch_id
        · have hkey : batchId =
              (reviewedBatch b action actor notes s.clock).batch_id := hb_id.symm
          have hfind : findBatch (review batchId action actor notes s).2 id =
              some (reviewedBatch b action actor notes s.clock) := by
            rw [review_pending hfb hst]
            have hgoal : id = (reviewedBatch b action actor notes s.clock).batch_id := hid
            rw [hgoal]
            exact find?_updateBatch_self (hkey ▸ hfb)
          have heq := hfind.symm.trans hb2
          injection heq with heq
          have hsid : findBatch s id = some b := by
            rw [hid, hb_id]
            exact hfb
          refine ⟨fun hn => ?_, fun b1 hb1 => ?_⟩
          · rw [hn] at hsid
            cases hsid
          · rw [hb1] at hsid
            injection hsid with hsid
            rw [hsid, hst, ← heq]
            cases action with
            | approve => exact Or.inr (Or.inl ⟨rfl, Or.inl rfl⟩)
            | reject => exact Or.inr (Or.inl ⟨rfl, Or.inr rfl⟩)
        · have hfind : findBatch (review batchId action actor notes s).2 id =
              findBatch s id := by
            rw [review_pending hfb hst]
            exact find?_updateBatch_ne _ _ hid
          rw [hfind] at hb2
          exact edges_of_eq hb2
      · rw [review_not_pending hfb hst] at hb2
        exact edges_of_eq hb2
  | ofSend batchId actor outcome s1 =>
    cases hfb : findBatch s batchId with
    | none =>
      rw [send_not_found hfb] at hb2
      exact edges_of_eq hb2
    | some b =>
      by_cases hst : b.status = Status.approved
      · have hb_id := findBatch_id hfb
        by_cases hid : id = b.batch_id
        · have hkey : batchId = (sentBatch b).batch_id := hb_id.symm
          have hfind : findBatch (send batchId actor outcome s).2 id =
              some (sentBatch b) := by
            rw [send_approved hfb hst]
            have hgoal : id = (sentBatch b).batch_id := hid
            rw [hgoal]
            exact find?_updateBatch_self (hkey ▸ hfb)
          have heq := hfind.symm.trans hb2
          injection heq with heq
          have hsid : findBatch s id = some b := by
            rw [hid, hb_id]
            exact hfb
          refine ⟨fun hn => ?_, fun b1 hb1 => ?_⟩
          · rw [hn] at hsid
            cases hsid
          · rw [hb1] at hsid
            injection hsid with hsid
            rw [hsid, hst, ← heq]
            exact Or.inr (Or.inr ⟨rfl, rfl⟩)
        · have hfind : findBatch (send batchId actor outcome s).2 id =
              findBatch s id := by
            rw [send_approved hfb hst]
            exact find?_updateBatch_ne _ _ hid
          rw [hfind] at hb2
          exact edges_of_eq hb2
      · rw [send_not_approved hfb hst] at hb2
        exact edges_of_eq hb2
  | ofExport batchId fmt actor s1 =>
    cases hfb : findBatch s batchId with
    | none =>
      rw [exportBatch_not_found hfb] at hb2
      exact edges_of_eq hb2
    | some b =>
      rw [exportBatch_found hfb] at hb2
      exact edges_of_eq hb2

/-- C2: a successful send on an approved batch of a reachable state
finalizes the batch as sent and persists exactly one new
TransmissionRecord whose success and error counts sum to its item count,
which equals the batch's item count fixed at creation; this holds for
every downstream outcome oracle, the all-items-fail case included. -/
theorem send_finalizes_batch {pool : List Item} {s : AdminState}
    (hr : Reachable pool s) {id : Nat} {b : Batch} (hb : findBatch s id = some b)
    (hst : b.status = Status.approved) (actor : String) (outcome : Nat → Bool) :
    (send id actor outcome s).1 =
      Except.ok ⟨(sendRecord b actor outcome s).items_count,
        (sendRecord b actor outcome s).success_count,
        (sendRecord b actor outcome s).error_count⟩ ∧
    (send id actor outcome s).2.records = sendRecord b actor outcome s :: s.records ∧
    (sendRecord b actor outcome s).success_count + (sendRecord b actor outcome s).error_count =
      (sendRecord b actor outcome s).items_count ∧
    (sendRecord b actor outcome s).items_count = b.total_items ∧
    findBatch (send id actor outcome s).2 id = some (sentBatch b) ∧
    (sentBatch b).status = Status.sent := by
  have hinv := reachable_inv hr
  have heq := @send_approved id actor outcome s b hb hst
  refine ⟨by rw [heq], by rw [heq], ?_, ?_, ?_, rfl⟩
  · exact countP_add_countP_not b.item_ids outcome
  · exact (hinv.total_eq b (findBatch_mem hb)).symm
  · rw [heq]
    have hb_id := findBatch_id hb
    have hgoal : id = (sentBatch b).batch_id := hb_id.symm
    rw [hgoal]
    exact find?_updateBatch_self (hgoal ▸ hb)

/-- C3: review of a batch whose status is not pending returns
`InvalidStateError` for either action, the state is unchanged, and the
batch is found afterwards with all of its fields identical. -/
theorem review_invalid_state {s : AdminState} {id : Nat} {b : Batch}
    (hb : findBatch s id = some b) (hst : b.status ≠ Status.pending)
    (action : ReviewAction) (actor notes : String) :
    review id action actor notes s = (Except.error AdminError.InvalidStateError, s) ∧
    findBatch (review id action actor notes s).2 id = some b :=
  ⟨review_not_pending hb hst, by rw [review_not_pending hb hst]; exact hb⟩

/-- C4: send on a batch whose status is not approved returns
`InvalidStateError`, leaves the state (the batch and the records table
included) unchanged, and a sent batch of a reachable state has exactly one
TransmissionRecord. -/
theorem send_invalid_state {pool : List Item} {s : AdminState}
    (hr : Reachable pool s) {id : Nat} {b : Batch} (hb : findBatch s id = some b)
    (hst : b.status ≠ Status.approved) (actor : String) (outcome : Nat → Bool) :
    send id actor outcome s = (Except.error AdminError.InvalidStateError, s) ∧
    findBatch (send id actor outcome s).2 id = some b ∧
    (send id actor outcome s).2.records = s.records ∧
    (b.status = Status.sent →
      s.records.countP (fun r => decide (r.batch_id = b.batch_id)) = 1) := by
  have heq := @send_not_approved id actor outcome s b hb hst
  refine ⟨heq, by rw [heq]; exact hb, by rw [heq], fun hsent => ?_⟩
  have hinv := reachable_inv hr
  rw [hinv.rec_count b (findBatch_mem hb), if_pos hsent]

/-- C5: create fails with `NoEligibleItemsError` and leaves the state
unchanged when the pool yields no eligible item; otherwise the returned
batch holds at most `maxItems` items, exactly the eligible items, each
scored at least `minQuality`, and its average quality score is the
arithmetic mean of the member items' scores. -/
theorem create_batch_spec (minQuality : ℚ) (maxItems : Nat) (actor : String)
    (s : AdminState) :
    (eligibleItems s minQuality maxItems = [] →
      create minQuality maxItems actor s =
        (Except.error AdminError.NoEligibleItemsError, s)) ∧
    (∀ b s2, create minQuality maxItems actor s = (Except.ok b, s2) →
      b.total_items ≤ maxItems ∧
      b.item_ids = (eligibleItems s minQuality maxItems).map Item.id ∧
      (∀ it ∈ eligibleItems s minQuality maxItems, minQuality ≤ it.quality_score) ∧
      b.avg_quality_score =
        ((eligibleItems s minQuality maxItems).map Item.quality_score).sum /
          ((eligibleItems s minQuality maxItems).length : ℚ)) := by
  constructor
  · intro h
    exact create_empty (by rw [h]; rfl)
  · intro b s2 hok
    by_cases he : (eligibleItems s minQuality maxItems).isEmpty
    · rw [create_empty he] at hok
      simp at hok
    · rw [create_nonempty (Bool.not_eq_true _ ▸ he)] at hok
      rw [Prod.mk.injEq] at hok
      have hbeq : newBatch minQuality maxItems s = b := by
        injection hok.1 with h
      rw [← hbeq]
      refine ⟨?_, rfl, ?_, rfl⟩
      · have : (newBatch minQuality maxItems s).total_items =
            (eligibleItems s minQuality maxItems).length := rfl
        rw [this]
        unfold eligibleItems
        rw [List.length_take]
        exact Nat.min_le_left _ _
      · intro it hit
        unfold eligibleItems at hit
        have h2 := List.take_subset _ _ hit
        have h3 := (List.mem_filter.mp h2).2
        rw [Bool.and_eq_true] at h3
        exact of_decide_eq_true h3.1

/-- C6: in every reachable state, two distinct batches hold disjoint sets
of item identifiers — an item identifier belongs to at most one batch. -/
theorem batch_items_disjoint {pool : List Item} {s : AdminState} (hr : Reachable pool s)
    {b1 b2 : Batch} (h1 : b1 ∈ s.batches) (h2 : b2 ∈ s.batches) (hne : b1 ≠ b2)
    {i : Nat} (hi : i ∈ b1.item_ids) : i ∉ b2.item_ids := by
  have hinv := reachable_inv hr
  have hne_id : b1.batch_id ≠ b2.batch_id := by
    intro hc
    exact hne (List.inj_on_of_nodup_map hinv.ids_nodup h1 h2 hc)
  exact hinv.disj b1 h1 b2 h2 hne_id i hi

theorem status_count_partition (l : List Batch) :
    l.length =
      l.countP (fun b => decide (b.status = Status.pending)) +
        l.countP (fun b => decide (b.status = Status.approved)) +
        l.countP (fun b => decide (b.status = Status.rejected)) +
        l.countP (fun b => decide (b.status = Status.sent)) := by
  induction l with
  | nil => rfl
  | cons x xs ih =>
    rw [List.length_cons, List.countP_cons, List.countP_cons, List.countP_cons,
      List.countP_cons]
    cases hx : x.status <;> simp [hx] <;> omega

/-- C7: in every reachable state, the total batch count equals the sum of
the per-status counts over the four statuses. -/
theorem stats_partition {pool : List Item} {s : AdminState} (_hr : Reachable pool s) :
    (batchStats s).total_batches =
      (batchStats s).pending_batches + (batchStats s).approved_batches +
        (batchStats s).rejected_batches + (batchStats s).sent_batches :=
  status_count_partition s.batches

/-- C8: exporting a batch changes no batch state — the batches table, the
records table and the item table are untouched; at most one audit entry is
appended. -/
theorem export_preserves_state (id : Nat) (fmt : ExportFormat) (actor : String)
    (s : AdminState) :
    (exportBatch id fmt actor s).2.batches = s.batches ∧
    (exportBatch id fmt actor s).2.records = s.records ∧
    (exportBatch id fmt actor s).2.itemsTable = s.itemsTable ∧
    ((exportBatch id fmt actor s).2.actions = s.actions ∨
      ∃ a, (exportBatch id fmt actor s).2.actions = a :: s.actions) := by
  cases hfb : findBatch s id with
  | none =>
    rw [exportBatch_not_found hfb]
    exact ⟨rfl, rfl, rfl, Or.inl rfl⟩
  | some b =>
    rw [exportBatch_found hfb]
    exact ⟨rfl, rfl, rfl, Or.inr ⟨_, rfl⟩⟩

/-- C9: two consecutive successful exports of the same batch with the same
format, with nothing modifying the batch in between, produce identical
payloads — export is deterministic in the batch state. -/
theorem export_deterministic {id : Nat} {fmt : ExportFormat} {actor : String}
    {s s1 s2 : AdminState} {a1 a2 : String}
    (h1 : exportBatch id fmt actor s = (Except.ok a1, s1))
    (h2 : exportBatch id fmt actor s1 = (Except.ok a2, s2)) :
    a1 = a2 := by
  cases hfb : findBatch s id with
  | none =>
    rw [exportBatch_not_found hfb] at h1
    simp at h1
  | some b =>
    rw [exportBatch_found hfb, Prod.mk.injEq] at h1
    obtain ⟨h1a, h1b⟩ := h1
    have hfb1 : findBatch s1 id = some b := by
      rw [← h1b]
      exact hfb
    have hitems : batchItems s1 b = batchItems s b := by
      rw [← h1b]
      rfl
    rw [exportBatch_found hfb1, Prod.mk.injEq] at h2
    obtain ⟨h2a, _⟩ := h2
    injection h1a with h1a
    injection h2a with h2a
    rw [← h1a, ← h2a, hitems]

/-! ## The NextAuth sign-in callback, embedded from the source -/

/-- From the source: the comma-separated `ADMIN_EMAILS` environment list,
split on commas with each entry trimmed; an unset variable yields the
empty list. -/
def adminEmailList (env : Option String) : List String :=
  match env with
  | some s => (s.splitOn ",").map (fun e => e.trim)
  | none => []

/-- From the source (`authOptions.callbacks.signIn`): deny when the user's
email is missing or empty (falsy) or not contained in the admin email
list, allow otherwise. -/
def signInCallback (env : Option String) (userEmail : Option String) : Bool :=
  match userEmail with
  | none => false
  | some e => if e = "" then false else (adminEmailList env).contains e

/-- C10: the sign-in callback grants access exactly when the user has a
non-empty email address that is a member of the trimmed, comma-separated
`ADMIN_EMAILS` list; a missing or unlisted email is denied. -/
theorem signIn_iff_admin_email (env userEmail : Option String) :
    signInCallback env userEmail = true ↔
      ∃ e, userEmail = some e ∧ e ≠ "" ∧ e ∈ adminEmailList env := by
  cases userEmail with
  | none => simp [signInCallback]
  | some e =>
    by_cases he : e = ""
    · simp [signInCallback, he]
    · simp [signInCallback, he, List.elem_iff]

/-! ## Concrete demonstration states for the witnesses -/

/-- A small concrete pool: two items above quality 7 and one below. -/
def demoPool : List Item :=
  [⟨1, "q1", "a1", 8, "stackoverflow"⟩, ⟨2, "q2", "a2", 9, "reddit"⟩,
    ⟨3, "q3", "a3", 5, "forum"⟩]

def demoS0 : AdminState := mkInit demoPool

def demoS1 : AdminState := (create 7 10 "alice" demoS0).2

def demoS2 : AdminState := (review 0 ReviewAction.approve "alice" "ok" demoS1).2

def demoBatchApproved : Batch :=
  reviewedBatch (newBatch 7 10 demoS0) ReviewAction.approve "alice" "ok" demoS1.clock

def demoS3 : AdminState := (send 0 "alice" (fun _ => false) demoS2).2

def demoBatchSent : Batch := sentBatch demoBatchApproved

def demoS4 : AdminState := (create 4 10 "bob" demoS3).2

def demoBatch1 : Batch := newBatch 4 10 demoS3

theorem demoReach1 : Reachable demoPool demoS1 :=
  Reachable.step Reachable.init (Step.ofCreate 7 10 "alice" demoS0)

theorem demoReach2 : Reachable demoPool demoS2 :=
  Reachable.step demoReach1 (Step.ofReview 0 ReviewAction.approve "alice" "ok" demoS1)

theorem demoReach3 : Reachable demoPool demoS3 :=
  Reachable.step demoReach2 (Step.ofSend 0 "alice" (fun _ => false) demoS2)

theorem demoReach4 : Reachable demoPool demoS4 :=
  Reachable.step demoReach3 (Step.ofCreate 4 10 "bob" demoS3)

/-! ## Witnesses -/

/-- Witness for C1 at the first create step: the created batch is found
pending and every present batch follows an allowed edge. -/
theorem batch_status_transitions_witness :
    (findBatch demoS0 0 = none → (newBatch 7 10 demoS0).status = Status.pending) ∧
    (∀ b1, findBatch demoS0 0 = some b1 →
      allowedEdge b1.status (newBatch 7 10 demoS0).status) :=
  batch_status_transitions Reachable.init (Step.ofCreate 7 10 "alice" demoS0) 0
    (newBatch 7 10 demoS0) rfl

/-- Witness for C2: sending the approved demo batch with every item
failing downstream still finalizes it as sent with the counts adding up. -/
theorem send_finalizes_batch_witness :
    (send 0 "alice" (fun _ => false) demoS2).1 =
      Except.ok
        ⟨(sendRecord demoBatchApproved "alice" (fun _ => false) demoS2).items_count,
          (sendRecord demoBatchApproved "alice" (fun _ => false) demoS2).success_count,
          (sendRecord demoBatchApproved "alice" (fun _ => false) demoS2).error_count⟩ ∧
    (send 0 "alice" (fun _ => false) demoS2).2.records =
      sendRecord demoBatchApproved "alice" (fun _ => false) demoS2 :: demoS2.records ∧
    (sendRecord demoBatchApproved "alice" (fun _ => false) demoS2).success_count +
        (sendRecord demoBatchApproved "alice" (fun _ => false) demoS2).error_count =
      (sendRecord demoBatchApproved "alice" (fun _ => false) demoS2).items_count ∧
    (sendRecord demoBatchApproved "alice" (fun _ => false) demoS2).items_count =
      demoBatchApproved.total_items ∧
    findBatch (send 0 "alice" (fun _ => false) demoS2).2 0 =
      some (sentBatch demoBatchApproved) ∧
    (sentBatch demoBatchApproved).status = Status.sent :=
  send_finalizes_batch demoReach2
    (show findBatch demoS2 0 = some demoBatchApproved from rfl) rfl "alice" (fun _ => false)

/-- Witness for C3: reviewing the already approved demo batch fails with
`InvalidStateError` and the batch is unchanged. -/
theorem review_invalid_state_witness :
    review 0 ReviewAction.approve "bob" "again" demoS2 =
      (Except.error AdminError.InvalidStateError, demoS2) ∧
    findBatch (review 0 ReviewAction.approve "bob" "again" demoS2).2 0 =
      some demoBatchApproved :=
  review_invalid_state (show findBatch demoS2 0 = some demoBatchApproved from rfl)
    (by decide) ReviewAction.approve "bob" "again"

/-- Witness for C4: retrying send on the already sent demo batch fails
with `InvalidStateError`, writes no record, and the batch keeps exactly
one transmission record. -/
theorem send_invalid_state_witness :
    send 0 "carol" (fun _ => true) demoS3 =
      (Except.error AdminError.InvalidStateError, demoS3) ∧
    findBatch (send 0 "carol" (fun _ => true) demoS3).2 0 = some demoBatchSent ∧
    (send 0 "carol" (fun _ => true) demoS3).2.records = demoS3.records ∧
    (demoBatchSent.status = Status.sent →
      demoS3.records.countP (fun r => decide (r.batch_id = demoBatchSent.batch_id)) = 1) :=
  send_invalid_state demoReach3 (show findBatch demoS3 0 = some demoBatchSent from rfl)
    (by decide) "carol" (fun _ => true)

/-- Witness for C5: the demo create keeps at most 10 items, exactly the
eligible ones, one of which scores at least 7, and computes the mean. -/
theorem create_batch_spec_witness :
    (newBatch 7 10 demoS0).total_items ≤ 10 ∧
    (newBatch 7 10 demoS0).item_ids = (eligibleItems demoS0 7 10).map Item.id ∧
    (7 : ℚ) ≤ (Item.mk 1 "q1" "a1" 8 "stackoverflow").quality_score ∧
    (newBatch 7 10 demoS0).avg_quality_score =
      ((eligibleItems demoS0 7 10).map Item.quality_score).sum /
        ((eligibleItems demoS0 7 10).length : ℚ) :=
  have h := (create_batch_spec 7 10 "alice" demoS0).2 (newBatch 7 10 demoS0) demoS1 rfl
  ⟨h.1, h.2.1, h.2.2.1 (Item.mk 1 "q1" "a1" 8 "stackoverflow") (by decide), h.2.2.2⟩

/-- Witness for C6: the second demo batch's item 3 does not belong to the
first, sent batch. -/
theorem batch_items_disjoint_witness : 3 ∉ demoBatchSent.item_ids :=
  batch_items_disjoint demoReach4 (List.mem_cons_self _ _)
    (List.mem_cons_of_mem _ (List.mem_cons_self _ _)) (by decide) (by decide)

/-- Witness for C7: the statistics of the demo state partition by status. -/
theorem stats_partition_witness :
    (batchStats demoS4).total_batches =
      (batchStats demoS4).pending_batches + (batchStats demoS4).approved_batches +
        (batchStats demoS4).rejected_batches + (batchStats demoS4).sent_batches :=
  stats_partition demoReach4

/-- Witness for C9: exporting the demo batch twice in a row produces the
same payload. -/
theorem export_deterministic_witness :
    exportPayload ExportFormat.json (batchItems demoS1 (newBatch 7 10 demoS0)) =
      exportPayload ExportFormat.json
        (batchItems (exportBatch 0 ExportFormat.json "alice" demoS1).2
          (newBatch 7 10 demoS0)) :=
  export_deterministic
    (show exportBatch 0 ExportFormat.json "alice" demoS1 =
        (Except.ok
          (exportPayload ExportFormat.json (batchItems demoS1 (newBatch 7 10 demoS0))),
          (exportBatch 0 ExportFormat.json "alice" demoS1).2) from rfl)
    (show exportBatch 0 ExportFormat.json "alice"
          (exportBatch 0 ExportFormat.json "alice" demoS1).2 =
        (Except.ok
          (exportPayload ExportFormat.json
            (batchItems (exportBatch 0 ExportFormat.json "alice" demoS1).2
              (newBatch 7 10 demoS0))),
          (exportBatch 0 ExportFormat.json "alice"
            (exportBatch 0 ExportFormat.json "alice" demoS1).2).2) from rfl)

end Pipedata
